import Mathlib

/-!
Verification of the `nothinghide` breach-intelligence agent
(`src/nothinghide/src/nothinghide/agent/` plus `password_checker.py`).

The Python code is shallowly embedded: pure functions become Lean
functions, mutable dataclasses become functional state updates, wall-clock
time becomes an explicit parameter, and external collaborators (HTTP
responses, the third-party e-mail validator) become explicit inputs.
Machine floats are modelled as rationals: every float that the code
compares or branches on here is a small dyadic value or a literal whose
comparisons are exact.
-/

/-! ## Python string helpers (ASCII fragment used by the repository) -/

/-- Python `str.lower()` restricted to ASCII, which is all the code relies on. -/
def pyLower (s : String) : String := String.mk (s.data.map Char.toLower)

/-- Python `str.upper()` restricted to ASCII. -/
def pyUpper (s : String) : String := String.mk (s.data.map Char.toUpper)

/-- ASCII whitespace recognised by Python `str.strip()`. -/
def isPyWs (c : Char) : Bool :=
  c = ' ' || c = '\t' || c = '\n' || c = '\x0d' || c = '\x0b' || c = '\x0c'

/-- Python `str.strip()` (ASCII whitespace). -/
def pyStrip (s : String) : String :=
  String.mk (((s.data.dropWhile isPyWs).reverse.dropWhile isPyWs).reverse)

/-- Python `min` on two floats, modelled on rationals (`min(a, b)`). -/
def pyMin (a b : Rat) : Rat := if a ≤ b then a else b

/-- Python `max` on two floats, modelled on rationals (`max(a, b)`). -/
def pyMax (a b : Rat) : Rat := if b ≤ a then a else b

/-- Truthiness of an optional string (`None` and `""` are falsy). -/
def strTruthy : Option String → Bool
  | none => false
  | some s => s ≠ ""

/-- Truthiness of an optional integer (`None` and `0` are falsy). -/
def intTruthy : Option Int → Bool
  | none => false
  | some n => n ≠ 0

/-- Truthiness of an optional list (`None` and `[]` are falsy). -/
def listTruthy {α : Type} : Option (List α) → Bool
  | none => false
  | some l => !l.isEmpty

/-! ## `agent/correlation.py`: normalization and year extraction -/

/-- `normalize_breach_name`: lower-case, strip, drop non-`[a-z0-9]` characters. -/
def normalizeBreachName (name : String) : String :=
  if name = "" then ""
  else String.mk ((pyStrip (pyLower name)).data.filter fun c =>
    ('a' ≤ c && c ≤ 'z') || ('0' ≤ c && c ≤ '9'))

/-- Four consecutive characters matching the regex `(19|20)\d{2}` at the head. -/
def yearAt : List Char → Option Int
  | c1 :: c2 :: c3 :: c4 :: _ =>
    if ((c1 = '1' && c2 = '9') || (c1 = '2' && c2 = '0')) && c3.isDigit && c4.isDigit then
      some ((((c1.toNat - 48) * 10 + (c2.toNat - 48)) * 100
        + (c3.toNat - 48) * 10 + (c4.toNat - 48) : Nat) : Int)
    else none
  | _ => none

/-- Leftmost match of `(19|20)\d{2}`, as `re.search` finds it. -/
def findYear : List Char → Option Int
  | [] => none
  | c :: cs =>
    match yearAt (c :: cs) with
    | some y => some y
    | none => findYear cs

/-- `extract_year`: first four-digit year starting `19` or `20` in the date string. -/
def extractYear : Option String → Option Int
  | none => none
  | some s => if s = "" then none else findYear s.data

/-- The `_known_aliases` table of `CorrelationEngine.__init__`. -/
def knownAliases : List (String × String) :=
  [("adobe", "adobe"), ("adobesystems", "adobe"),
   ("linkedin", "linkedin"), ("linkedincom", "linkedin"),
   ("dropbox", "dropbox"), ("dropboxcom", "dropbox")]

/-- Lookup in the alias table (`dict.get(normalized, normalized)`). -/
def aliasLookup : List (String × String) → String → Option String
  | [], _ => none
  | (k, v) :: rest, n => if n = k then some v else aliasLookup rest n

/-- `CorrelationEngine._normalize_with_aliases`. -/
def normalizeWithAliases (name : String) : String :=
  let n := normalizeBreachName name
  match aliasLookup knownAliases n with
  | some v => v
  | none => n

/-! ## Data model -/

/-- One raw per-breach dictionary as produced by a source client.
Fields are `Option`s because the Python dictionaries may lack keys
(absent key and falsy `None` value coincide in how the engine reads them
via `.get`). -/
structure RawBreach where
  name : Option String := none
  date : Option String := none
  data_classes : Option (List String) := none
  description : Option String := none
  records_exposed : Option Int := none
deriving Repr, DecidableEq

/-- `SourceResult` from `agent/sources.py` (fields the engine reads). -/
structure SourceResult where
  source_name : String
  breached : Bool := false
  breaches : List RawBreach := []
  error : Option String := none
  response_time_ms : Rat := 0
deriving Repr, DecidableEq

/-- `SourceResult.success`: true iff no error recorded. -/
def SourceResult.success (r : SourceResult) : Bool := r.error.isNone

/-- `CorrelatedBreach` from `agent/correlation.py` (without `raw_data`). -/
structure CorrelatedBreach where
  name : String
  normalized_name : String
  date : Option String := none
  year : Option Int := none
  data_classes : List String := []
  description : Option String := none
  records_exposed : Option Int := none
  sources : List String := []
  confidence : Rat := 0
deriving Repr, DecidableEq

/-- Python `list.append` of the elements of `dcs` not already present
(the `for dc in other["data_classes"]` loop of `merge_from`). -/
def appendAbsent (l : List String) (dcs : List String) : List String :=
  dcs.foldl (fun acc dc => if dc ∈ acc then acc else acc ++ [dc]) l

/-- `merge_from`, line 58: append the source if absent. -/
def mergeSources (cb : CorrelatedBreach) (source : String) : CorrelatedBreach :=
  if source ∈ cb.sources then cb else { cb with sources := cb.sources ++ [source] }

/-- `merge_from`, lines 61-63: first non-falsy date wins, refreshing the year. -/
def mergeDate (cb : CorrelatedBreach) (other : RawBreach) : CorrelatedBreach :=
  if ¬ strTruthy cb.date ∧ strTruthy other.date then
    { cb with date := other.date, year := extractYear other.date } else cb

/-- `merge_from`, lines 65-68: union of data classes, append-if-absent. -/
def mergeDataClasses (cb : CorrelatedBreach) (other : RawBreach) : CorrelatedBreach :=
  if listTruthy other.data_classes then
    { cb with data_classes := appendAbsent cb.data_classes (other.data_classes.getD []) }
  else cb

/-- `merge_from`, lines 70-71: first non-falsy description wins. -/
def mergeDescription (cb : CorrelatedBreach) (other : RawBreach) : CorrelatedBreach :=
  if ¬ strTruthy cb.description ∧ strTruthy other.description then
    { cb with description := other.description } else cb

/-- `merge_from`, lines 73-74: first truthy records count wins. -/
def mergeRecords (cb : CorrelatedBreach) (other : RawBreach) : CorrelatedBreach :=
  if ¬ intTruthy cb.records_exposed ∧ intTruthy other.records_exposed then
    { cb with records_exposed := other.records_exposed } else cb

/-- `CorrelatedBreach.merge_from` as a functional update: the field
updates in source order, then `confidence = min(1.0, len(sources)/3)`. -/
def CorrelatedBreach.mergeFrom (cb : CorrelatedBreach) (other : RawBreach)
    (source : String) : CorrelatedBreach :=
  let cb := mergeSources cb source
  let cb := mergeDate cb other
  let cb := mergeDataClasses cb other
  let cb := mergeDescription cb other
  let cb := mergeRecords cb other
  { cb with confidence := pyMin 1 ((cb.sources.length : Rat) / 3) }

/-- The fresh `CorrelatedBreach` built in the `else` branch of `correlate`. -/
def newCorrelatedBreach (source : String) (raw : RawBreach) : CorrelatedBreach :=
  { name := raw.name.getD "Unknown"
    normalized_name := normalizeWithAliases (raw.name.getD "Unknown")
    date := raw.date
    year := extractYear raw.date
    data_classes := raw.data_classes.getD ["Unknown"]
    description := raw.description
    records_exposed := raw.records_exposed
    sources := [source]
    confidence := 33/100 }

/-- `CorrelatedResult` from `agent/correlation.py` (without timestamp). -/
structure CorrelatedResult where
  email : String
  breached : Bool
  breach_count : Nat
  breaches : List CorrelatedBreach
  sources_queried : List String
  sources_succeeded : List String
  sources_failed : List String
  total_response_time_ms : Rat
  average_confidence : Rat
  risk_score : Rat := 0
deriving Repr, DecidableEq

/-! ## `CorrelationEngine.correlate` -/

/-- The insertion-ordered `correlated_breaches` dictionary, as an
association list keyed by the alias-resolved normalized name. -/
def lookupKey (k : String) : List (String × CorrelatedBreach) → Option CorrelatedBreach
  | [] => none
  | (k', v) :: rest => if k' = k then some v else lookupKey k rest

/-- In-place update of the entry at key `k` (Python dict item mutation). -/
def updateKey (k : String) (f : CorrelatedBreach → CorrelatedBreach) :
    List (String × CorrelatedBreach) → List (String × CorrelatedBreach)
  | [] => []
  | (k', v) :: rest => if k' = k then (k', f v) :: rest else (k', v) :: updateKey k f rest

/-- Body of the `for breach in result.breaches` loop in `correlate`. -/
def stepBreach (source : String) (acc : List (String × CorrelatedBreach))
    (raw : RawBreach) : List (String × CorrelatedBreach) :=
  let name := raw.name.getD "Unknown"
  let normalized := normalizeWithAliases name
  match lookupKey normalized acc with
  | some _ => updateKey normalized (fun cb => cb.mergeFrom raw source) acc
  | none => acc ++ [(normalized, newCorrelatedBreach source raw)]

/-- Body of the `for result in results` loop: only successful results
contribute breaches. -/
def stepResult (acc : List (String × CorrelatedBreach)) (r : SourceResult) :
    List (String × CorrelatedBreach) :=
  if r.success then r.breaches.foldl (stepBreach r.source_name) acc else acc

/-- The accumulated `correlated_breaches` dictionary after all results. -/
def correlateMap (results : List SourceResult) : List (String × CorrelatedBreach) :=
  results.foldl stepResult []

/-- Insert `x` before the first element it compares `le` to. -/
def insertSorted {α : Type} (le : α → α → Bool) (x : α) : List α → List α
  | [] => [x]
  | y :: ys => if le x y then x :: y :: ys else y :: insertSorted le x ys

/-- Stable sort by `le` (`le a b` = `a` may come before `b`): the
embedding of `list.sort`, which is a stable sort; elements are inserted
before the first element they compare `le` to, so original order is kept
among ties. -/
def pySort {α : Type} (le : α → α → Bool) : List α → List α
  | [] => []
  | x :: xs => insertSorted le x (pySort le xs)

/-- Sort key `(b.year or 0, b.name)`; `reverse=True` means descending. -/
def breachSortLe (a b : CorrelatedBreach) : Bool :=
  let ya := a.year.getD 0
  let yb := b.year.getD 0
  decide (yb < ya) || (decide (yb = ya) && !decide (a.name < b.name))

/-- The set of sensitive data classes in `_calculate_risk_score`. -/
def sensitiveData : List String :=
  ["password", "passwords", "financial", "credit card", "ssn", "health"]

/-- `b.year and current_year - b.year <= 2` (Python truthiness: year `0`
or `None` is falsy). -/
def isRecent (currentYear : Int) (b : CorrelatedBreach) : Bool :=
  match b.year with
  | some y => y ≠ 0 && currentYear - y ≤ 2
  | none => false

/-- A breach contains at least one sensitive data class (the inner
`for dc in breach.data_classes` loop with `break`). -/
def hasSensitive (b : CorrelatedBreach) : Bool :=
  b.data_classes.any fun dc => pyLower dc ∈ sensitiveData

/-- `CorrelationEngine._calculate_risk_score` (`datetime.now().year` is the
explicit `currentYear` parameter). -/
def calculateRiskScore (currentYear : Int) (breaches : List CorrelatedBreach) : Rat :=
  if breaches = [] then 0
  else
    let score : Rat := 0
    let score := score + pyMin ((breaches.length : Rat) * 5) 40
    let score := score + ((breaches.countP fun b => isRecent currentYear b) : Rat) * 15
    let score := score + ((breaches.countP fun b => hasSensitive b) : Rat) * 10
    let score := score + ((breaches.countP fun b => decide (b.confidence ≥ 1/2)) : Rat) * 5
    pyMin 100 score

/-- `CorrelationEngine.correlate`. -/
def correlate (currentYear : Int) (results : List SourceResult) (email : String) :
    CorrelatedResult :=
  let m := correlateMap results
  let breachesList := pySort breachSortLe (m.map Prod.snd)
  let averageConfidence : Rat :=
    if breachesList = [] then 0
    else (breachesList.map (·.confidence)).sum / (breachesList.length : Rat)
  { email := email
    breached := decide (0 < breachesList.length)
    breach_count := breachesList.length
    breaches := breachesList
    sources_queried := results.map (·.source_name)
    sources_succeeded := (results.filter (·.success)).map (·.source_name)
    sources_failed := (results.filter fun r => !r.success).map (·.source_name)
    total_response_time_ms := (results.map (·.response_time_ms)).sum
    average_confidence := averageConfidence
    risk_score := calculateRiskScore currentYear breachesList }

/-! ## `password_checker.py`: SHA-1 and the HIBP k-anonymity check

`hashlib.sha1` is embedded as SHA-1 itself (FIPS 180-1), over the UTF-8
bytes of the password. 32-bit words are naturals reduced mod `2^32`. -/

/-- Reduce to a 32-bit word. -/
def w32 (x : Nat) : Nat := x % 4294967296

/-- Rotate a 32-bit word left by `n`. -/
def rotl (n x : Nat) : Nat := w32 ((x <<< n) ||| (x >>> (32 - n)))

/-- UTF-8 encoding of one character. -/
def utf8Char (c : Char) : List Nat :=
  let n := c.toNat
  if n < 128 then [n]
  else if n < 2048 then [192 ||| (n >>> 6), 128 ||| (n &&& 63)]
  else if n < 65536 then
    [224 ||| (n >>> 12), 128 ||| ((n >>> 6) &&& 63), 128 ||| (n &&& 63)]
  else
    [240 ||| (n >>> 18), 128 ||| ((n >>> 12) &&& 63),
     128 ||| ((n >>> 6) &&& 63), 128 ||| (n &&& 63)]

/-- `password.encode("utf-8")` as a byte list. -/
def utf8Bytes (s : String) : List Nat := s.data.flatMap utf8Char

/-- Big-endian byte representation of `x` on `n` bytes. -/
def bytesBE (n x : Nat) : List Nat :=
  (List.range n).map fun i => (x >>> ((n - 1 - i) * 8)) &&& 255

/-- SHA-1 padding: `0x80`, zeros to 56 mod 64, 64-bit big-endian bit length. -/
def sha1Pad (msg : List Nat) : List Nat :=
  let zeros := (119 - msg.length % 64) % 64
  msg ++ [128] ++ List.replicate zeros 0 ++ bytesBE 8 (msg.length * 8)

/-- Split a byte list into 64-byte blocks (structural recursion on a fuel
bound so the definition reduces by `rfl`/`decide`). -/
def chunk64Go : Nat → List Nat → List (List Nat)
  | 0, _ => []
  | _, [] => []
  | fuel + 1, x :: xs => ((x :: xs).take 64) :: chunk64Go fuel ((x :: xs).drop 64)

/-- Split a byte list into 64-byte blocks. -/
def chunk64 (l : List Nat) : List (List Nat) := chunk64Go l.length l

/-- The sixteen 32-bit big-endian words of one 64-byte block. -/
def blockWords (block : List Nat) : List Nat :=
  (List.range 16).map fun i =>
    (block.getD (4 * i) 0) <<< 24 ||| (block.getD (4 * i + 1) 0) <<< 16 |||
    (block.getD (4 * i + 2) 0) <<< 8 ||| block.getD (4 * i + 3) 0

/-- Extend sixteen words to the 80-word message schedule:
`w[i] = rotl1 (w[i-3] xor w[i-8] xor w[i-14] xor w[i-16])`. -/
def sha1Schedule (ws : List Nat) : List Nat :=
  (List.range 64).foldl
    (fun acc j =>
      acc ++ [rotl 1 ((acc.getD (j + 13) 0) ^^^ (acc.getD (j + 8) 0) ^^^
        (acc.getD (j + 2) 0) ^^^ (acc.getD j 0))])
    ws

/-- One SHA-1 round on the state `(a, b, c, d, e)`. -/
def sha1Round (i w : Nat) (st : Nat × Nat × Nat × Nat × Nat) :
    Nat × Nat × Nat × Nat × Nat :=
  let (a, b, c, d, e) := st
  let f :=
    if i < 20 then (b &&& c) ||| ((b ^^^ 4294967295) &&& d)
    else if i < 40 then b ^^^ c ^^^ d
    else if i < 60 then (b &&& c) ||| (b &&& d) ||| (c &&& d)
    else b ^^^ c ^^^ d
  let k :=
    if i < 20 then 1518500249
    else if i < 40 then 1859775393
    else if i < 60 then 2400959708
    else 3395469782
  let temp := w32 (rotl 5 a + f + e + k + w)
  (temp, a, rotl 30 b, c, d)

/-- Process one 64-byte block into the running hash state. -/
def sha1Block (h : Nat × Nat × Nat × Nat × Nat) (block : List Nat) :
    Nat × Nat × Nat × Nat × Nat :=
  let ws := sha1Schedule (blockWords block)
  let st := ((List.range 80).zip ws).foldl (fun st p => sha1Round p.1 p.2 st) h
  (w32 (h.1 + st.1), w32 (h.2.1 + st.2.1), w32 (h.2.2.1 + st.2.2.1),
   w32 (h.2.2.2.1 + st.2.2.2.1), w32 (h.2.2.2.2 + st.2.2.2.2))

/-- SHA-1 digest of a byte list, as five 32-bit words. -/
def sha1Words (msg : List Nat) : List Nat :=
  let st := (chunk64 (sha1Pad msg)).foldl sha1Block
    (1732584193, 4023233417, 2562383102, 271733878, 3285377520)
  [st.1, st.2.1, st.2.2.1, st.2.2.2.1, st.2.2.2.2]

/-- Lower-case hex digit. -/
def hexDigit (n : Nat) : Char :=
  if n < 10 then Char.ofNat (48 + n) else Char.ofNat (87 + n)

/-- Eight lower-case hex digits of a 32-bit word. -/
def wordHex (x : Nat) : List Char :=
  (List.range 8).map fun i => hexDigit ((x >>> ((7 - i) * 4)) &&& 15)

/-- `hashlib.sha1(...).hexdigest()`: 40 lower-case hex characters. -/
def sha1HexLower (msg : List Nat) : String :=
  String.mk ((sha1Words msg).flatMap wordHex)

/-- `hash_password_sha1`: uppercase SHA-1 hex digest of the UTF-8 password. -/
def hashPasswordSha1 (password : String) : String :=
  pyUpper (sha1HexLower (utf8Bytes password))

/-- Python slicing `s[:n]` on code points. -/
def strTake (s : String) (n : Nat) : String := String.mk (s.data.take n)

/-- Python slicing `s[n:]` on code points. -/
def strDrop (s : String) (n : Nat) : String := String.mk (s.data.drop n)

/-- `get_hash_prefix_suffix`: `(sha1_hash[:5], sha1_hash[5:])`. -/
def getHashPrefixSuffix (sha1Hash : String) : String × String :=
  (strTake sha1Hash 5, strDrop sha1Hash 5)

/-- `HIBP_PASSWORD_API.format(prefix=...)` from `config.py`. -/
def hibpPasswordApi (pfx : String) : String :=
  "https://api.pwnedpasswords.com/range/" ++ pfx

/-- The request URL `check_password_hibp` builds for a password. -/
def hibpRequestUrl (password : String) : String :=
  hibpPasswordApi (getHashPrefixSuffix (hashPasswordSha1 password)).1

/-- Substring test (Python `a in b`). -/
def strInfix (a b : String) : Bool := b.data.tails.any fun t => a.data.isPrefixOf t

/-- Result dictionary of `check_password_hibp`. -/
structure HibpResult where
  exposed : Bool
  count : Int
  source : String
deriving Repr, DecidableEq

/-- Errors `check_password_hibp` can raise. -/
inductive PwError where
  | validation (msg fld : String)
  | rateLimit (apiName : String)
  | apiError (msg apiName : String) (status : Nat)
deriving Repr, DecidableEq

/-- Split at the first `:` (Python `line.split(":", 1)`), returning the
pieces on both sides; total, the caller only uses it when `:` occurs. -/
def splitAtColon : List Char → List Char × List Char
  | [] => ([], [])
  | c :: cs =>
    if c = ':' then ([], cs)
    else
      let p := splitAtColon cs
      (c :: p.1, p.2)

/-- Python `int(s)` on an already-stripped string: optional sign followed
by at least one digit (the digit-grouping underscore extension is not
used by the provider's numeric counts). -/
def parsePyInt (s : String) : Option Int :=
  let digits (cs : List Char) : Option Nat :=
    if cs ≠ [] ∧ cs.all Char.isDigit then
      some (cs.foldl (fun acc c => acc * 10 + (c.toNat - 48)) 0)
    else none
  match s.data with
  | '-' :: rest => (digits rest).map fun n => -(n : Int)
  | '+' :: rest => (digits rest).map fun n => (n : Int)
  | cs => (digits cs).map fun n => (n : Int)

/-- The `for line in response.text.splitlines()` loop of
`check_password_hibp`: scan the `suffix:count` lines for the local hash
suffix; everything here is local computation. -/
def scanLines (sfx : String) : List String → HibpResult
  | [] => { exposed := false, count := 0, source := "Have I Been Pwned" }
  | line :: rest =>
    if !(line.data.contains ':') then scanLines sfx rest
    else
      let p := splitAtColon line.data
      let hashSuffix := pyStrip (String.mk p.1)
      if pyUpper hashSuffix = sfx then
        let count := match parsePyInt (pyStrip (String.mk p.2)) with
          | some n => n
          | none => 1
        { exposed := true, count := count, source := "Have I Been Pwned" }
      else scanLines sfx rest

/-- `check_password_hibp`, with the HTTP exchange abstracted into its
observable pieces: the response status and the lines of the response
body (`response.text.splitlines()`). -/
def checkPasswordHibp (password : String) (status : Nat) (lines : List String) :
    Except PwError HibpResult :=
  if password = "" then .error (.validation "Password cannot be empty" "password")
  else
    let sha1Hash := hashPasswordSha1 password
    let ps := getHashPrefixSuffix sha1Hash
    if status = 429 then .error (.rateLimit "Have I Been Pwned")
    else if status ≠ 200 then
      .error (.apiError "API returned status" "Have I Been Pwned" status)
    else .ok (scanLines ps.2 lines)

/-! ## `agent/sources.py`: `SourceHealth`

`datetime.now()` becomes an explicit timestamp parameter (seconds).
`retry_after` is a non-negative number of seconds, as the `Retry-After`
header the hint comes from. -/

/-- `SourceStatus` enumeration. -/
inductive SourceStatus where
  | healthy
  | degraded
  | rateLimited
  | unavailable
  | unknown
deriving Repr, DecidableEq

/-- `SourceHealth` dataclass. -/
structure SourceHealth where
  status : SourceStatus := .unknown
  last_success : Option Nat := none
  last_failure : Option Nat := none
  consecutive_failures : Nat := 0
  rate_limit_reset : Option Nat := none
  avg_response_time_ms : Rat := 0
  success_rate : Rat := 1
  total_requests : Nat := 0
  successful_requests : Nat := 0
deriving Repr, DecidableEq

/-- `SourceHealth._update_avg_response_time`: EMA with weight 0.2. -/
def updateAvgResponseTime (newTime : Rat) (h : SourceHealth) : SourceHealth :=
  if h.avg_response_time_ms = 0 then { h with avg_response_time_ms := newTime }
  else { h with avg_response_time_ms :=
    h.avg_response_time_ms * (4/5) + newTime * (1/5) }

/-- `SourceHealth._update_success_rate`. -/
def updateSuccessRate (h : SourceHealth) : SourceHealth :=
  if 0 < h.total_requests then
    { h with success_rate := (h.successful_requests : Rat) / (h.total_requests : Rat) }
  else h

/-- `SourceHealth._update_status` at wall-clock time `now`. -/
def updateStatus (now : Nat) (h : SourceHealth) : SourceHealth :=
  if (match h.rate_limit_reset with | some r => decide (now < r) | none => false) then
    { h with status := .rateLimited }
  else if 5 ≤ h.consecutive_failures then { h with status := .unavailable }
  else if 2 ≤ h.consecutive_failures ∨ h.success_rate < 7/10 then
    { h with status := .degraded }
  else { h with status := .healthy }

/-- The status `_update_status` assigns: a pure function of the counters. -/
def pureStatus (now : Nat) (h : SourceHealth) : SourceStatus :=
  if (match h.rate_limit_reset with | some r => decide (now < r) | none => false) then
    .rateLimited
  else if 5 ≤ h.consecutive_failures then .unavailable
  else if 2 ≤ h.consecutive_failures ∨ h.success_rate < 7/10 then .degraded
  else .healthy

/-- `SourceHealth.record_success` at time `now`. -/
def recordSuccess (now : Nat) (responseTime : Rat) (h : SourceHealth) : SourceHealth :=
  let h := { h with
    last_success := some now
    consecutive_failures := 0
    total_requests := h.total_requests + 1
    successful_requests := h.successful_requests + 1 }
  updateStatus now (updateSuccessRate (updateAvgResponseTime responseTime h))

/-- The counter updates at the top of `SourceHealth.record_failure`. -/
def recordFailureBase (now : Nat) (h : SourceHealth) : SourceHealth :=
  updateSuccessRate { h with
    last_failure := some now
    consecutive_failures := h.consecutive_failures + 1
    total_requests := h.total_requests + 1 }

/-- The rate-limit cooldown: the provider's `retry_after` hint when truthy
(`None` and `0` both fall back to 60 seconds). -/
def retryDelta (retryAfter : Option Nat) : Nat :=
  match retryAfter with
  | some ra => if ra ≠ 0 then ra else 60
  | none => 60

/-- `SourceHealth.record_failure` at time `now`. -/
def recordFailure (now : Nat) (isRateLimit : Bool) (retryAfter : Option Nat)
    (h : SourceHealth) : SourceHealth :=
  if isRateLimit then
    { recordFailureBase now h with
      rate_limit_reset := some (now + retryDelta retryAfter)
      status := .rateLimited }
  else updateStatus now (recordFailureBase now h)

/-- `SourceHealth.is_available` at time `now`: returns the boolean answer
and the (possibly auto-cleared) state. -/
def isAvailable (now : Nat) (h : SourceHealth) : Bool × SourceHealth :=
  if h.status = .rateLimited then
    match h.rate_limit_reset with
    | some r =>
      if r ≤ now then (true, { h with status := .healthy, rate_limit_reset := none })
      else (false, h)
    | none => (false, h)
  else (decide (h.status ≠ .unavailable), h)

/-- Health states reachable from the initial `SourceHealth()` by any
sequence of `record_success` / `record_failure` calls. -/
inductive ReachableHealth : SourceHealth → Prop where
  | init : ReachableHealth {}
  | success (now : Nat) (rt : Rat) {h : SourceHealth} :
      ReachableHealth h → ReachableHealth (recordSuccess now rt h)
  | failure (now : Nat) (irl : Bool) (ra : Option Nat) {h : SourceHealth} :
      ReachableHealth h → ReachableHealth (recordFailure now irl ra h)

/-! ## `agent/rate_limiter.py`: `RateLimitState` and `RetryStrategy` -/

/-- `RateLimitState` dataclass (timestamps in seconds). -/
structure RateLimitState where
  requests_made : Nat := 0
  window_start : Rat := 0
  window_seconds : Nat := 60
  max_requests_per_window : Nat := 100
  backoff_until : Option Rat := none
  current_backoff_seconds : Rat := 1
  max_backoff_seconds : Rat := 60
deriving Repr, DecidableEq

/-- `RateLimitState.record_rate_limit` at time `now`; the `retry_after`
hint follows Python truthiness (`None` and `0` take the doubling branch). -/
def rlRecordRateLimit (now : Rat) (retryAfter : Option Nat) (s : RateLimitState) :
    RateLimitState :=
  match retryAfter with
  | some ra =>
    if ra ≠ 0 then
      { s with backoff_until := some (now + (ra : Rat)),
               current_backoff_seconds := (ra : Rat) }
    else
      let nb := pyMin (s.current_backoff_seconds * 2) s.max_backoff_seconds
      { s with current_backoff_seconds := nb, backoff_until := some (now + nb) }
  | none =>
    let nb := pyMin (s.current_backoff_seconds * 2) s.max_backoff_seconds
    { s with current_backoff_seconds := nb, backoff_until := some (now + nb) }

/-- `RateLimitState.record_success`: halve the backoff, floor 1. -/
def rlRecordSuccess (s : RateLimitState) : RateLimitState :=
  { s with current_backoff_seconds := pyMax 1 (s.current_backoff_seconds * (1/2)),
           backoff_until := none }

/-- `n` consecutive no-hint rate-limit signals (the timestamps do not
influence the computed backoff, so time is fixed at 0). -/
def rlSignals (n : Nat) (s : RateLimitState) : RateLimitState :=
  match n with
  | 0 => s
  | n + 1 => rlSignals n (rlRecordRateLimit 0 none s)

/-- `RetryStrategy.should_retry` (`error` is the Python exception type
name; by the time it is consulted in `_query_source_with_retry` an error
is always present). -/
def shouldRetry (maxRetries attempt : Nat) (errorType : String) : Bool :=
  if maxRetries ≤ attempt then false
  else !(errorType = "ValidationError" || errorType = "AuthenticationError")

/-! ## `agent/orchestrator.py`: `BreachIntelligenceAgent`

The external pieces of `check_email` are explicit inputs: the third-party
e-mail validator (`_validate_email`, a collaborator from the
`email_validator` package) is a function returning either the normalized
address or a `ValidationError`, and the concurrent fan-out over the
configured sources is a list of per-source functions from the normalized
e-mail to the `SourceResult` each fan-out branch produces (lines 192-213
already convert every exception into a `SourceResult` with an error). -/

/-- The exceptions `check_email` can surface (`exceptions.py`). -/
inductive AgentError where
  | validationError (msg fld : String)
  | networkError (msg : String)
deriving Repr, DecidableEq

/-- `BreachIntelligenceAgent.check_email`. -/
def checkEmail (validate : String → Except AgentError String)
    (sources : List (String → SourceResult)) (currentYear : Int)
    (email : String) : Except AgentError CorrelatedResult :=
  match validate email with
  | .error e => .error e
  | .ok normalizedEmail =>
    if sources.isEmpty then
      .error (.networkError "No breach data sources available")
    else
      .ok (correlate currentYear (sources.map fun fetch => fetch normalizedEmail)
        normalizedEmail)

/-- The empty result with failure marker substituted for a failed element
in `check_emails_batch`. -/
def markerResult (email : String) : CorrelatedResult :=
  { email := email
    breached := false
    breach_count := 0
    breaches := []
    sources_queried := []
    sources_succeeded := []
    sources_failed := ["All sources failed"]
    total_response_time_ms := 0
    average_confidence := 0
    risk_score := 0 }

/-- `BreachIntelligenceAgent.check_emails_batch`: every element resolves
independently; any exception is swallowed into the marker result. The
semaphore only bounds concurrency and does not affect the value
returned for each position. -/
def checkEmailsBatch (validate : String → Except AgentError String)
    (sources : List (String → SourceResult)) (currentYear : Int)
    (emails : List String) : List CorrelatedResult :=
  emails.map fun email =>
    match checkEmail validate sources currentYear email with
    | .ok r => r
    | .error _ => markerResult email

/-! ### `_query_source_with_retry` as an event trace

For the rate-limiter wrapping claim the retry loop is embedded as the
sequence of observable events one call produces. The rate limiter's
`acquire` answer and the source's behaviour on each attempt are oracles
indexed by the attempt number. -/

/-- Observable events of `_query_source_with_retry`. -/
inductive RLEvent where
  | acquire (ok : Bool)
  | fetch
  | release
  | sleep
deriving Repr, DecidableEq

/-- What `source.fetch` does on one attempt: return a successful
`SourceResult`, return a failed one (its error becomes a generic
`Exception`), or raise an exception of the named Python type. -/
inductive FetchOutcome where
  | success
  | failure
  | exception (errorType : String)
deriving Repr, DecidableEq

/-- The relevant `AgentConfig` fields. -/
structure QueryConfig where
  enable_rate_limiting : Bool := false
  max_retries_per_source : Nat := 2
deriving Repr, DecidableEq

/-- One attempt's trailing events plus the loop continuation, starting at
`attempt`; `fuel` bounds the remaining attempts (`max_retries + 1 - attempt`). -/
def queryGo (cfg : QueryConfig) (acq : Nat → Bool) (out : Nat → FetchOutcome) :
    Nat → Nat → List RLEvent
  | 0, _ => []
  | fuel + 1, attempt =>
    let pre := if cfg.enable_rate_limiting then [RLEvent.acquire (acq attempt)] else []
    if cfg.enable_rate_limiting ∧ acq attempt = false then pre
    else
      let post := if cfg.enable_rate_limiting then [RLEvent.release] else []
      match out attempt with
      | .success => pre ++ [RLEvent.fetch] ++ post
      | .failure =>
        if shouldRetry cfg.max_retries_per_source attempt "Exception" then
          pre ++ [RLEvent.fetch] ++ post ++ [RLEvent.sleep]
            ++ queryGo cfg acq out fuel (attempt + 1)
        else pre ++ [RLEvent.fetch] ++ post
      | .exception t =>
        if shouldRetry cfg.max_retries_per_source attempt t then
          pre ++ [RLEvent.fetch] ++ post ++ [RLEvent.sleep]
            ++ queryGo cfg acq out fuel (attempt + 1)
        else pre ++ [RLEvent.fetch] ++ post

/-- The full event trace of one `_query_source_with_retry` call. -/
def queryTrace (cfg : QueryConfig) (acq : Nat → Bool) (out : Nat → FetchOutcome) :
    List RLEvent :=
  queryGo cfg acq out (cfg.max_retries_per_source + 1) 0

/-- Every `fetch` is immediately preceded by a successful `acquire` and
immediately followed by a `release` (the claim's wrapping property). -/
def wrappedB : List RLEvent → Bool
  | [] => true
  | .fetch :: _ => false
  | .acquire true :: .fetch :: .release :: rest => wrappedB rest
  | _ :: .fetch :: _ => false
  | _ :: rest => wrappedB rest

/-! ## Bridging lemmas -/

set_option maxRecDepth 10000

theorem pyMin_eq_min (a b : Rat) : pyMin a b = min a b := by
  rw [pyMin, min_def]

theorem pyMax_eq_max (a b : Rat) : pyMax a b = max a b := by
  rw [pyMax, max_comm, max_def]

/-! ## Risk score: closed form, bounds, monotonicity (shared helpers) -/

theorem riskScore_eq (currentYear : Int) (l : List CorrelatedBreach) :
    calculateRiskScore currentYear l =
      if l = [] then 0 else
        min 100 (min ((l.length : Rat) * 5) 40
          + (l.countP fun b => isRecent currentYear b) * 15
          + (l.countP fun b => hasSensitive b) * 10
          + (l.countP fun b => decide (b.confidence ≥ 1/2)) * 5) := by
  rw [calculateRiskScore]
  split
  · rfl
  · simp only [pyMin_eq_min]
    ring_nf

theorem riskScore_nonneg (currentYear : Int) (l : List CorrelatedBreach) :
    0 ≤ calculateRiskScore currentYear l := by
  rw [riskScore_eq]
  split
  · norm_num
  · refine le_min (by norm_num) ?_
    have t1 : (0 : Rat) ≤ min ((l.length : Rat) * 5) 40 := le_min (by positivity) (by norm_num)
    have t2 : (0 : Rat) ≤ ((l.countP fun b => isRecent currentYear b) : Rat) * 15 := by positivity
    have t3 : (0 : Rat) ≤ ((l.countP fun b => hasSensitive b) : Rat) * 10 := by positivity
    have t4 : (0 : Rat) ≤ ((l.countP fun b => decide (b.confidence ≥ 1/2)) : Rat) * 5 := by
      positivity
    linarith

theorem riskScore_le_100 (currentYear : Int) (l : List CorrelatedBreach) :
    calculateRiskScore currentYear l ≤ 100 := by
  rw [riskScore_eq]
  split
  · norm_num
  · exact min_le_left _ _

theorem riskScore_mono (currentYear : Int) (l extra : List CorrelatedBreach) :
    calculateRiskScore currentYear l ≤ calculateRiskScore currentYear (l ++ extra) := by
  by_cases hl : l = []
  · subst hl
    simpa using riskScore_nonneg currentYear extra
  · have hl2 : l ++ extra ≠ [] := by
      simp [hl]
    rw [riskScore_eq, riskScore_eq, if_neg hl, if_neg hl2]
    apply min_le_min le_rfl
    have hlen : (l.length : Rat) * 5 ≤ ((l ++ extra).length : Rat) * 5 := by
      have : l.length ≤ (l ++ extra).length := by
        simp
      have := (Nat.cast_le (α := Rat)).mpr this
      nlinarith
    have hc : ∀ p : CorrelatedBreach → Bool,
        ((l.countP p : Rat)) ≤ ((l ++ extra).countP p : Rat) := by
      intro p
      have : l.countP p ≤ (l ++ extra).countP p := by
        rw [List.countP_append]
        omega
      exact_mod_cast this
    have h1 := hc fun b => isRecent currentYear b
    have h2 := hc fun b => hasSensitive b
    have h3 := hc fun b => decide (b.confidence ≥ 1/2)
    have hmin : min ((l.length : Rat) * 5) 40 ≤ min (((l ++ extra).length : Rat) * 5) 40 :=
      min_le_min hlen le_rfl
    nlinarith

/-- The risk-score formula exactly as claimed by the spec, whose sensitive
set is only `{password, financial, ssn, health}`; kept separate so it can
be compared with `calculateRiskScore` as translated from the source. -/
def sensitiveDataClaimed : List String := ["password", "financial", "ssn", "health"]

/-- The claimed sensitive-breach test over the claimed four-element set. -/
def hasSensitiveClaimed (b : CorrelatedBreach) : Bool :=
  b.data_classes.any fun dc => pyLower dc ∈ sensitiveDataClaimed

/-- The spec's claimed risk-score function (identical to the code except
for the sensitive-data set). -/
def riskScoreClaimed (currentYear : Int) (breaches : List CorrelatedBreach) : Rat :=
  if breaches = [] then 0
  else
    let score : Rat := 0
    let score := score + pyMin ((breaches.length : Rat) * 5) 40
    let score := score + ((breaches.countP fun b => isRecent currentYear b) : Rat) * 15
    let score := score + ((breaches.countP fun b => hasSensitiveClaimed b) : Rat) * 10
    let score := score + ((breaches.countP fun b => decide (b.confidence ≥ 1/2)) : Rat) * 5
    pyMin 100 score

/-- A breach whose only data class is "credit card": sensitive for the
code, not sensitive for the claimed four-element set. -/
def ccBreach : CorrelatedBreach :=
  { name := "X", normalized_name := "x", data_classes := ["credit card"],
    sources := ["s1"], confidence := 33/100 }

/-- C3 counterexample: on a breach exposing only "credit card" the code
scores 15 (count 5 + sensitive 10) while the claimed formula over exactly
{password, financial, ssn, health} scores 5, so the claim as stated is
false. -/
theorem riskScore_sensitive_set_counterexample :
    calculateRiskScore 2026 [ccBreach] = 15 ∧
    riskScoreClaimed 2026 [ccBreach] = 5 ∧
    calculateRiskScore 2026 [ccBreach] ≠ riskScoreClaimed 2026 [ccBreach] := by
  refine ⟨of_decide_eq_true (by with_unfolding_all rfl),
    of_decide_eq_true (by with_unfolding_all rfl),
    of_decide_eq_false (by with_unfolding_all rfl)⟩

/-- C3 (amended): `_calculate_risk_score` returns 0 on an empty list and
otherwise `min(100, min(5·count, 40) + 15·recent + 10·sensitive +
5·high-confidence)` where the sensitive set is {password, passwords,
financial, credit card, ssn, health} (case-insensitively, once per
breach); the result lies in [0, 100] and is monotonically non-decreasing
in the breach count with all other factors fixed. -/
theorem riskScore_characterization (currentYear : Int) (l : List CorrelatedBreach) :
    (calculateRiskScore currentYear l =
      if l = [] then 0 else
        min 100 (min ((l.length : Rat) * 5) 40
          + (l.countP fun b => isRecent currentYear b) * 15
          + (l.countP fun b => hasSensitive b) * 10
          + (l.countP fun b => decide (b.confidence ≥ 1/2)) * 5)) ∧
    0 ≤ calculateRiskScore currentYear l ∧
    calculateRiskScore currentYear l ≤ 100 ∧
    ∀ extra, calculateRiskScore currentYear l ≤ calculateRiskScore currentYear (l ++ extra) :=
  ⟨riskScore_eq currentYear l, riskScore_nonneg currentYear l,
   riskScore_le_100 currentYear l, fun extra => riskScore_mono currentYear l extra⟩

/-! ## C2: the password k-anonymity contract -/

/-- C2 counterexample: the claim's literal digest
"5BAA61E4C9B93F3F0682250B6CF8331B7EE68FD" has only 39 hex characters and
is not the SHA-1 of "password" (the real digest ends in an extra "8");
moreover the request URL does contain the plaintext "password" as a
substring, inside the static host name "api.pwnedpasswords.com". -/
theorem hibp_hash_counterexample :
    hashPasswordSha1 "password" ≠ "5BAA61E4C9B93F3F0682250B6CF8331B7EE68FD" ∧
    (hashPasswordSha1 "password").length = 40 ∧
    "5BAA61E4C9B93F3F0682250B6CF8331B7EE68FD".length = 39 ∧
    strInfix "password" (hibpRequestUrl "password") = true := by
  refine ⟨of_decide_eq_false (by with_unfolding_all rfl), by decide, by decide, by decide⟩

/-- C2 (amended): the uppercase SHA-1 of "password" is
"5BAA61E4C9B93F3F0682250B6CF8331B7EE68FD8"; the request URL is the fixed
HIBP range template with exactly the 5-character prefix "5BAA6"
substituted — the only password-derived data in the URL — and contains
neither the full digest nor any longer digest prefix (the static host
name happens to contain the word "password" for every query); the status
200 result is computed entirely locally by scanning the returned
`suffix:count` lines for the locally held suffix. -/
theorem hibp_k_anonymity_contract :
    hashPasswordSha1 "password" = "5BAA61E4C9B93F3F0682250B6CF8331B7EE68FD8" ∧
    (getHashPrefixSuffix (hashPasswordSha1 "password")).1 = "5BAA6" ∧
    hibpRequestUrl "password" = "https://api.pwnedpasswords.com/range/5BAA6" ∧
    strInfix "5BAA6" (hibpRequestUrl "password") = true ∧
    strInfix (hashPasswordSha1 "password") (hibpRequestUrl "password") = false ∧
    strInfix "5BAA61" (hibpRequestUrl "password") = false ∧
    ∀ lines : List String,
      checkPasswordHibp "password" 200 lines =
        .ok (scanLines (getHashPrefixSuffix (hashPasswordSha1 "password")).2 lines) := by
  refine ⟨by decide, by decide, by decide, by decide, by decide, by decide, fun lines => rfl⟩

/-! ## C1: `check_email` when every source fails -/

/-- A validator that accepts the given address unchanged (the behaviour
of the external `email_validator` collaborator on a well-formed,
already-normalized address). -/
def okValidator : String → Except AgentError String := fun email => .ok email

/-- Two configured sources whose queries both fail: the fan-out produces
a `SourceResult` with a non-null error for each. -/
def failingSources : List (String → SourceResult) :=
  [fun _ => { source_name := "LeakCheck", error := some "API returned status 500" },
   fun _ => { source_name := "HackCheck", error := some "Request timed out" }]

/-- C1: when every configured source's query fails, `check_email` does
NOT raise `NetworkError` — it returns a `CorrelatedResult` normally, with
every source in `sources_failed`, none in `sources_succeeded`, and
`breached = false`. (`NetworkError` is only raised when the source list
itself is empty; the `min_sources_for_result` config field is never
consulted.) -/
theorem checkEmail_totalFailure_returnsNormally :
    ∃ r : CorrelatedResult,
      checkEmail okValidator failingSources 2026 "user@example.com" = .ok r ∧
      r.sources_failed = ["LeakCheck", "HackCheck"] ∧
      r.sources_succeeded = [] ∧
      r.breached = false ∧
      r.breach_count = 0 := by
  refine ⟨_, rfl, ?_, ?_, ?_, ?_⟩ <;> with_unfolding_all rfl

/-! ## C8: rate limiter backoff behaviour -/

theorem rlRecordRateLimit_none_backoff (now : Rat) (s : RateLimitState) :
    (rlRecordRateLimit now none s).current_backoff_seconds =
      pyMin (s.current_backoff_seconds * 2) s.max_backoff_seconds := rfl

theorem rlRecordRateLimit_none_max (now : Rat) (s : RateLimitState) :
    (rlRecordRateLimit now none s).max_backoff_seconds = s.max_backoff_seconds := rfl

theorem rlSignals_succ (n : Nat) (s : RateLimitState) :
    rlSignals (n + 1) s = rlRecordRateLimit 0 none (rlSignals n s) := by
  induction n generalizing s with
  | zero => rfl
  | succ m ih =>
    show rlSignals (m + 1) (rlRecordRateLimit 0 none s) = _
    rw [ih]
    rfl

theorem rlSignals_max (n : Nat) (s : RateLimitState) :
    (rlSignals n s).max_backoff_seconds = s.max_backoff_seconds := by
  induction n generalizing s with
  | zero => rfl
  | succ m ih =>
    show (rlSignals m (rlRecordRateLimit 0 none s)).max_backoff_seconds = _
    rw [ih]
    rfl

theorem rlStep_bounds {s : RateLimitState}
    (h1 : 1 ≤ s.current_backoff_seconds)
    (hcap : s.current_backoff_seconds ≤ s.max_backoff_seconds)
    (hm : 2 ≤ s.max_backoff_seconds) :
    2 ≤ (rlRecordRateLimit 0 none s).current_backoff_seconds ∧
    (rlRecordRateLimit 0 none s).current_backoff_seconds ≤ s.max_backoff_seconds := by
  rw [rlRecordRateLimit_none_backoff, pyMin]
  split
  · constructor
    · linarith
    · assumption
  · exact ⟨hm, le_rfl⟩

theorem rlSignals_bounds (n : Nat) (s : RateLimitState)
    (h1 : 1 ≤ s.current_backoff_seconds)
    (hcap : s.current_backoff_seconds ≤ s.max_backoff_seconds)
    (hm : 2 ≤ s.max_backoff_seconds) :
    1 ≤ (rlSignals n s).current_backoff_seconds ∧
    (rlSignals n s).current_backoff_seconds ≤ s.max_backoff_seconds := by
  induction n generalizing s with
  | zero => exact ⟨h1, hcap⟩
  | succ m ih =>
    have hstep := rlStep_bounds h1 hcap hm
    have hmax := rlRecordRateLimit_none_max (0 : Rat) s
    show 1 ≤ (rlSignals m (rlRecordRateLimit 0 none s)).current_backoff_seconds ∧ _
    have := ih (rlRecordRateLimit 0 none s) (by linarith [hstep.1])
      (by rw [hmax]; exact hstep.2) (by rw [hmax]; exact hm)
    rw [hmax] at this
    exact this

theorem rlSignals_ge_two (n : Nat) (s : RateLimitState)
    (h1 : 1 ≤ s.current_backoff_seconds)
    (hcap : s.current_backoff_seconds ≤ s.max_backoff_seconds)
    (hm : 2 ≤ s.max_backoff_seconds) :
    2 ≤ (rlSignals (n + 1) s).current_backoff_seconds := by
  rw [rlSignals_succ]
  have hb := rlSignals_bounds n s h1 hcap hm
  have hmax := rlSignals_max n s
  have := rlStep_bounds (s := rlSignals n s) hb.1 (by rw [hmax]; exact hb.2)
    (by rw [hmax]; exact hm)
  exact this.1

/-- C8: starting from a state whose backoff sits between the floor 1 and
the configured maximum (the default state starts at 1/60), any sequence
of `N` no-hint rate-limit signals computes backoffs that are
non-decreasing and never exceed `max_backoff_seconds`, and a subsequent
`record_success` strictly decreases the backoff but never below 1. -/
theorem rateLimiter_backoff_behaviour (s : RateLimitState) (N : Nat)
    (h1 : 1 ≤ s.current_backoff_seconds)
    (hcap : s.current_backoff_seconds ≤ s.max_backoff_seconds)
    (hm : 2 ≤ s.max_backoff_seconds) :
    (∀ k, k < N →
      (rlSignals k s).current_backoff_seconds ≤
        (rlSignals (k + 1) s).current_backoff_seconds) ∧
    (∀ k, k ≤ N →
      (rlSignals k s).current_backoff_seconds ≤ s.max_backoff_seconds) ∧
    (1 ≤ N →
      (rlRecordSuccess (rlSignals N s)).current_backoff_seconds <
        (rlSignals N s).current_backoff_seconds ∧
      1 ≤ (rlRecordSuccess (rlSignals N s)).current_backoff_seconds) := by
  refine ⟨?_, ?_, ?_⟩
  · intro k _
    have hb := rlSignals_bounds k s h1 hcap hm
    rw [rlSignals_succ, rlRecordRateLimit_none_backoff, rlSignals_max, pyMin]
    split
    · linarith [hb.1]
    · exact hb.2
  · intro k _
    exact (rlSignals_bounds k s h1 hcap hm).2
  · intro hN
    obtain ⟨m, rfl⟩ : ∃ m, N = m + 1 := ⟨N - 1, by omega⟩
    have h2 := rlSignals_ge_two m s h1 hcap hm
    show pyMax 1 ((rlSignals (m + 1) s).current_backoff_seconds * (1/2)) < _ ∧
      1 ≤ pyMax 1 ((rlSignals (m + 1) s).current_backoff_seconds * (1/2))
    rw [pyMax]
    split
    · constructor
      · linarith
      · norm_num
    · constructor
      · linarith
      · linarith

/-- C8 witness: the default per-source state, two signals, then a success. -/
theorem rateLimiter_backoff_witness :
    (rlSignals 1 (⟨0, 0, 60, 100, none, 1, 60⟩ : RateLimitState)).current_backoff_seconds ≤
      (rlSignals 2 (⟨0, 0, 60, 100, none, 1, 60⟩ : RateLimitState)).current_backoff_seconds ∧
    (rlRecordSuccess (rlSignals 2 (⟨0, 0, 60, 100, none, 1, 60⟩ : RateLimitState))).current_backoff_seconds <
      (rlSignals 2 (⟨0, 0, 60, 100, none, 1, 60⟩ : RateLimitState)).current_backoff_seconds := by
  have h := rateLimiter_backoff_behaviour (⟨0, 0, 60, 100, none, 1, 60⟩ : RateLimitState) 2
    (by norm_num) (by norm_num) (by norm_num)
  exact ⟨h.1 1 (by norm_num), (h.2.2 (by norm_num)).1⟩

/-! ## C6: the SourceHealth state machine -/

theorem updateStatus_status (now : Nat) (h : SourceHealth) :
    (updateStatus now h).status = pureStatus now h := by
  rw [updateStatus, pureStatus]
  split_ifs <;> rfl

theorem pureStatus_updateStatus (now : Nat) (h : SourceHealth) :
    pureStatus now (updateStatus now h) = pureStatus now h := by
  rw [updateStatus]
  split_ifs <;> rfl

theorem updateStatus_reset (now : Nat) (h : SourceHealth) :
    (updateStatus now h).rate_limit_reset = h.rate_limit_reset := by
  rw [updateStatus]
  split_ifs <;> rfl

theorem updateStatus_rateLimited {now : Nat} {h : SourceHealth}
    (hs : (updateStatus now h).status = .rateLimited) :
    ∃ r, h.rate_limit_reset = some r ∧ now < r := by
  rw [updateStatus] at hs
  split_ifs at hs with hc
  · match hr : h.rate_limit_reset with
    | some r =>
      rw [hr] at hc
      exact ⟨r, rfl, of_decide_eq_true hc⟩
    | none =>
      rw [hr] at hc
      simp at hc
  all_goals simp at hs

/-- `record_success` recomputes the status as the pure function of the
updated counters. -/
theorem recordSuccess_status (h : SourceHealth) (now : Nat) (rt : Rat) :
    (recordSuccess now rt h).status = pureStatus now (recordSuccess now rt h) := by
  rw [recordSuccess, updateStatus_status, pureStatus_updateStatus]

theorem retryDelta_pos (ra : Option Nat) : 0 < retryDelta ra := by
  cases ra with
  | none => decide
  | some r =>
    show 0 < (if r ≠ 0 then r else 60)
    split
    · omega
    · decide

theorem recordFailure_status (h : SourceHealth) (now : Nat) (irl : Bool)
    (ra : Option Nat) :
    (recordFailure now irl ra h).status = pureStatus now (recordFailure now irl ra h) := by
  rw [recordFailure]
  split
  · rw [pureStatus]
    have hlt : decide (now < now + retryDelta ra) = true := by
      have := retryDelta_pos ra
      simp
      omega
    rw [if_pos hlt]
  · rw [updateStatus_status, pureStatus_updateStatus]

theorem recordSuccess_reset (h : SourceHealth) (now : Nat) (rt : Rat) :
    (recordSuccess now rt h).rate_limit_reset = h.rate_limit_reset := by
  rw [recordSuccess, updateStatus_reset, updateSuccessRate, updateAvgResponseTime]
  split <;> split <;> rfl

/-- Reachable states that are RATE_LIMITED always carry a reset time. -/
theorem reachable_rateLimited_reset {h : SourceHealth} (hr : ReachableHealth h) :
    h.status = .rateLimited → ∃ r, h.rate_limit_reset = some r := by
  induction hr with
  | init => intro hs; simp at hs
  | success now rt hprev ih =>
    intro hs
    rw [recordSuccess] at hs ⊢
    obtain ⟨r, hr', _⟩ := updateStatus_rateLimited hs
    exact ⟨r, by rw [updateStatus_reset]; exact hr'⟩
  | failure now irl ra hprev ih =>
    intro hs
    rw [recordFailure] at hs ⊢
    split at hs <;> split
    · exact ⟨_, rfl⟩
    · simp_all
    · simp_all
    · obtain ⟨r, hr', _⟩ := updateStatus_rateLimited hs
      exact ⟨r, by rw [updateStatus_reset]; exact hr'⟩

/-- C6: after every `record_success`/`record_failure` call the status is
the pure function of the counters (RATE_LIMITED while `now <
rate_limit_reset`, else UNAVAILABLE at 5+ consecutive failures, else
DEGRADED at 2+ consecutive failures or success rate below 0.7, else
HEALTHY); and on every reachable state `is_available()` returns false
exactly in UNAVAILABLE and in RATE_LIMITED before the reset time, while a
RATE_LIMITED state whose reset time has passed auto-clears to HEALTHY and
reports available. -/
theorem sourceHealth_state_machine :
    (∀ (h : SourceHealth) (now : Nat) (rt : Rat),
      (recordSuccess now rt h).status = pureStatus now (recordSuccess now rt h)) ∧
    (∀ (h : SourceHealth) (now : Nat) (irl : Bool) (ra : Option Nat),
      (recordFailure now irl ra h).status = pureStatus now (recordFailure now irl ra h)) ∧
    (∀ h : SourceHealth, ReachableHealth h → ∀ now : Nat,
      ((isAvailable now h).1 = false ↔
        h.status = .unavailable ∨
          (h.status = .rateLimited ∧ ∃ r, h.rate_limit_reset = some r ∧ now < r)) ∧
      (∀ r, h.status = .rateLimited → h.rate_limit_reset = some r → r ≤ now →
        (isAvailable now h).1 = true ∧ (isAvailable now h).2.status = .healthy)) := by
  have isAvailable_rl : ∀ {h : SourceHealth} {now r : Nat},
      h.status = .rateLimited → h.rate_limit_reset = some r →
      isAvailable now h =
        if r ≤ now then (true, { h with status := .healthy, rate_limit_reset := none })
        else (false, h) := by
    intro h now r hrl hr
    rw [isAvailable, if_pos hrl, hr]
  refine ⟨recordSuccess_status, recordFailure_status, ?_⟩
  intro h hreach now
  by_cases hrl : h.status = .rateLimited
  · obtain ⟨r, hr⟩ := reachable_rateLimited_reset hreach hrl
    rw [isAvailable_rl hrl hr]
    by_cases hle : r ≤ now
    · rw [if_pos hle]
      constructor
      · simp only [Bool.true_eq_false, false_iff]
        rintro (habs | ⟨-, r', hr', hlt⟩)
        · rw [hrl] at habs
          exact absurd habs (by simp)
        · rw [hr] at hr'
          injection hr' with he
          omega
      · intro r' _ hr' _
        refine ⟨rfl, rfl⟩
    · rw [if_neg hle]
      constructor
      · simp only [true_iff]
        exact Or.inr ⟨hrl, r, hr, by omega⟩
      · intro r' _ hr' hle'
        rw [hr] at hr'
        injection hr' with he
        omega
  · rw [isAvailable, if_neg hrl]
    constructor
    · constructor
      · intro hfalse
        simp only [decide_eq_false_iff_not, ne_eq, not_not] at hfalse
        exact Or.inl hfalse
      · rintro (huna | ⟨habs, -⟩)
        · simp [huna]
        · exact absurd habs hrl
    · intro r habs
      exact absurd habs hrl

/-- C6 witness: one rate-limit failure at time 5 from the initial state
yields a reachable RATE_LIMITED state with reset time 65; at time 10 it
is unavailable. -/
theorem sourceHealth_state_machine_witness :
    (isAvailable 10 (recordFailure 5 true none {})).1 = false := by
  have H := sourceHealth_state_machine
  have h3 := H.2.2 (recordFailure 5 true none {})
    (ReachableHealth.failure 5 true none ReachableHealth.init) 10
  refine h3.1.mpr (Or.inr ⟨?_, 65, ?_, by omega⟩)
  · with_unfolding_all rfl
  · with_unfolding_all rfl

/-! ## C7: rate-limiter wrapping of the fetch in `_query_source_with_retry` -/

/-- The trace does not start with a bare `fetch`. -/
def headNF : List RLEvent → Bool
  | .fetch :: _ => false
  | _ => true

theorem wrappedB_triple (rest : List RLEvent) :
    wrappedB (.acquire true :: .fetch :: .release :: rest) = wrappedB rest := rfl

theorem wrappedB_sleep (rest : List RLEvent) (hr : headNF rest = true) :
    wrappedB (.sleep :: rest) = wrappedB rest := by
  cases rest with
  | nil => rfl
  | cons f t =>
    cases f with
    | acquire b => rfl
    | fetch => simp [headNF] at hr
    | release => rfl
    | sleep => rfl

theorem queryGo_wrapped (cfg : QueryConfig) (acq : Nat → Bool)
    (out : Nat → FetchOutcome) (h : cfg.enable_rate_limiting = true) :
    ∀ fuel attempt, wrappedB (queryGo cfg acq out fuel attempt) = true ∧
      headNF (queryGo cfg acq out fuel attempt) = true := by
  intro fuel
  induction fuel with
  | zero => exact fun _ => ⟨rfl, rfl⟩
  | succ fuel ih =>
    intro attempt
    rw [queryGo]
    simp only [h, if_true, true_and]
    by_cases ha : acq attempt = false
    · rw [if_pos ha, ha]
      exact ⟨rfl, rfl⟩
    · rw [if_neg ha]
      have ha' : acq attempt = true := by
        cases hq : acq attempt
        · exact absurd hq ha
        · rfl
      rw [ha']
      cases hout : out attempt with
      | success => exact ⟨rfl, rfl⟩
      | failure =>
        by_cases hsr : shouldRetry cfg.max_retries_per_source attempt "Exception" = true
        · rw [if_pos hsr]
          have hih := ih (attempt + 1)
          refine ⟨?_, rfl⟩
          show wrappedB (.acquire true :: .fetch :: .release :: .sleep ::
            queryGo cfg acq out fuel (attempt + 1)) = true
          rw [wrappedB_triple, wrappedB_sleep _ hih.2]
          exact hih.1
        · rw [if_neg hsr]
          exact ⟨rfl, rfl⟩
      | exception t =>
        show wrappedB (if shouldRetry cfg.max_retries_per_source attempt t = true then
            [RLEvent.acquire true] ++ [RLEvent.fetch] ++ [RLEvent.release] ++ [RLEvent.sleep] ++
              queryGo cfg acq out fuel (attempt + 1)
          else [RLEvent.acquire true] ++ [RLEvent.fetch] ++ [RLEvent.release]) = true ∧
          headNF (if shouldRetry cfg.max_retries_per_source attempt t = true then
            [RLEvent.acquire true] ++ [RLEvent.fetch] ++ [RLEvent.release] ++ [RLEvent.sleep] ++
              queryGo cfg acq out fuel (attempt + 1)
          else [RLEvent.acquire true] ++ [RLEvent.fetch] ++ [RLEvent.release]) = true
        by_cases hsr : shouldRetry cfg.max_retries_per_source attempt t = true
        · rw [if_pos hsr]
          have hih := ih (attempt + 1)
          refine ⟨?_, rfl⟩
          show wrappedB (.acquire true :: .fetch :: .release :: .sleep ::
            queryGo cfg acq out fuel (attempt + 1)) = true
          rw [wrappedB_triple, wrappedB_sleep _ hih.2]
          exact hih.1
        · rw [if_neg hsr]
          exact ⟨rfl, rfl⟩

/-- C7 counterexample: under the default `AgentConfig`
(`enable_rate_limiting = False`), a single successful attempt issues a
`fetch` with no `acquire` at all, so the claim that every fan-out fetch
is wrapped by acquire/release is false as stated. -/
theorem queryTrace_unwrapped_counterexample :
    queryTrace {} (fun _ => true) (fun _ => .success) = [.fetch] ∧
    wrappedB (queryTrace {} (fun _ => true) (fun _ => .success)) = false := by
  exact ⟨rfl, rfl⟩

/-- C7 (amended): when `enable_rate_limiting` is true, every `fetch` in
the event trace of `_query_source_with_retry` is immediately preceded by
a successful `RateLimiter.acquire` and immediately followed by a
`RateLimiter.release` — no fetch is issued without a prior successful
acquire — for every acquire oracle and every per-attempt source
behaviour. -/
theorem queryTrace_wrapped_when_enabled (cfg : QueryConfig) (acq : Nat → Bool)
    (out : Nat → FetchOutcome) (h : cfg.enable_rate_limiting = true) :
    wrappedB (queryTrace cfg acq out) = true := by
  rw [queryTrace]
  exact (queryGo_wrapped cfg acq out h _ 0).1

/-- C7 witness: rate limiting enabled, retrying failures to exhaustion. -/
theorem queryTrace_wrapped_witness :
    wrappedB (queryTrace { enable_rate_limiting := true } (fun _ => true)
      (fun _ => .failure)) = true :=
  queryTrace_wrapped_when_enabled { enable_rate_limiting := true }
    (fun _ => true) (fun _ => .failure) rfl

/-! ## C9: batch isolation -/

/-- C9: `check_emails_batch` returns one result per input, positionally;
an element whose `check_email` raises is replaced by the empty
marker result (`sources_failed = ["All sources failed"]`) without
aborting the rest; and in the concrete scenario of the claim — a stub
source that always succeeds with no breaches and the batch
`["a@x.com", "not-an-email", "b@x.com"]` whose middle element fails
validation — the result has length 3, index 1 is the marker, and indices
0 and 2 resolve normally. -/
theorem checkEmailsBatch_isolation (validate : String → Except AgentError String)
    (sources : List (String → SourceResult)) (year : Int) :
    (∀ emails : List String,
      (checkEmailsBatch validate sources year emails).length = emails.length) ∧
    (∀ (emails : List String) (i : Nat) (email : String) (e : AgentError),
      emails[i]? = some email →
      checkEmail validate sources year email = .error e →
      (checkEmailsBatch validate sources year emails)[i]? = some (markerResult email)) ∧
    (∀ (emails : List String) (i : Nat) (email : String) (r : CorrelatedResult),
      emails[i]? = some email →
      checkEmail validate sources year email = .ok r →
      (checkEmailsBatch validate sources year emails)[i]? = some r) ∧
    (∀ (f : String → SourceResult) (nm : String) (err : AgentError),
      (∀ s : String, f s = { source_name := nm }) →
      validate "a@x.com" = .ok "a@x.com" →
      validate "not-an-email" = .error err →
      validate "b@x.com" = .ok "b@x.com" →
      (checkEmailsBatch validate [f] year ["a@x.com", "not-an-email", "b@x.com"]).length = 3 ∧
      (checkEmailsBatch validate [f] year ["a@x.com", "not-an-email", "b@x.com"])[1]? =
        some (markerResult "not-an-email") ∧
      ((checkEmailsBatch validate [f] year ["a@x.com", "not-an-email", "b@x.com"])[0]?.map
        fun r => (r.breached, r.sources_succeeded, r.sources_failed)) =
          some (false, [nm], []) ∧
      ((checkEmailsBatch validate [f] year ["a@x.com", "not-an-email", "b@x.com"])[2]?.map
        fun r => (r.breached, r.sources_succeeded, r.sources_failed)) =
          some (false, [nm], [])) := by
  refine ⟨?_, ?_, ?_, ?_⟩
  · intro emails
    simp [checkEmailsBatch]
  · intro emails i email e hmem herr
    simp [checkEmailsBatch, List.getElem?_map, hmem, herr]
  · intro emails i email r hmem hok
    simp [checkEmailsBatch, List.getElem?_map, hmem, hok]
  · intro f nm err hf hv1 hv2 hv3
    have hok : ∀ s : String, validate s = .ok s →
        checkEmail validate [f] year s =
          .ok (correlate year [{ source_name := nm }] s) := by
      intro s hs
      rw [checkEmail, hs]
      simp [hf]
    refine ⟨by simp [checkEmailsBatch], ?_, ?_, ?_⟩
    · simp [checkEmailsBatch, checkEmail, hv2]
    · rw [show (checkEmailsBatch validate [f] year
        ["a@x.com", "not-an-email", "b@x.com"])[0]? =
          some (correlate year [{ source_name := nm }] "a@x.com") by
        simp [checkEmailsBatch, hok "a@x.com" hv1]]
      simp [correlate, correlateMap, stepResult, SourceResult.success, pySort]
    · rw [show (checkEmailsBatch validate [f] year
        ["a@x.com", "not-an-email", "b@x.com"])[2]? =
          some (correlate year [{ source_name := nm }] "b@x.com") by
        simp [checkEmailsBatch, hok "b@x.com" hv3]]
      simp [correlate, correlateMap, stepResult, SourceResult.success, pySort]

/-- C9 witness: a concrete rejecting validator and stub source. -/
theorem checkEmailsBatch_isolation_witness :
    (checkEmailsBatch
      (fun s => if s = "not-an-email" then .error (.validationError "bad" "email") else .ok s)
      [fun _ => { source_name := "Stub" }] 2026
      ["a@x.com", "not-an-email", "b@x.com"]).length = 3 ∧
    (checkEmailsBatch
      (fun s => if s = "not-an-email" then .error (.validationError "bad" "email") else .ok s)
      [fun _ => { source_name := "Stub" }] 2026
      ["a@x.com", "not-an-email", "b@x.com"])[1]? =
        some (markerResult "not-an-email") := by
  have H := checkEmailsBatch_isolation
    (fun s => if s = "not-an-email" then .error (.validationError "bad" "email") else .ok s)
    [fun _ => ({ source_name := "Stub" } : SourceResult)] 2026
  have H4 := H.2.2.2 (fun _ => { source_name := "Stub" }) "Stub"
    (.validationError "bad" "email") (fun s => rfl) rfl rfl rfl
  exact ⟨H4.1, H4.2.1⟩

/-! ## C4/C5/C10: correlation invariants

The nested result/breach loop of `correlate` is re-expressed as one left
fold over the flattened list of `(source_name, raw breach)` pairs of the
successful results, and an invariant on the accumulator dictionary is
carried through that fold. -/

/-- The `(source_name, raw breach)` pairs the engine actually processes,
in processing order. -/
def contribPairs (results : List SourceResult) : List (String × RawBreach) :=
  results.flatMap fun r =>
    if r.success then r.breaches.map (fun b => (r.source_name, b)) else []

/-- The merge key of one processed pair. -/
def pairKey (p : String × RawBreach) : String :=
  normalizeWithAliases (p.2.name.getD "Unknown")

/-- The source names contributing breaches with merge key `k`. -/
def namesFor (k : String) (ps : List (String × RawBreach)) : List String :=
  (ps.filter fun p => pairKey p = k).map Prod.fst

/-- Python `list.append`-if-absent of one element. -/
def addIfAbsent (l : List String) (s : String) : List String :=
  if s ∈ l then l else l ++ [s]

/-- First-occurrence deduplication: what repeated append-if-absent builds. -/
def distinctFold (ns : List String) : List String := ns.foldl addIfAbsent []

/-- The loop body over one flattened pair. -/
def step2 (acc : List (String × CorrelatedBreach)) (p : String × RawBreach) :
    List (String × CorrelatedBreach) :=
  stepBreach p.1 acc p.2

theorem foldl_stepResult_flatten (results : List SourceResult) :
    ∀ init, results.foldl stepResult init = (contribPairs results).foldl step2 init := by
  induction results with
  | nil => intro init; rfl
  | cons r rs ih =>
    intro init
    have hc : contribPairs (r :: rs) =
        (if r.success then r.breaches.map (fun b => (r.source_name, b)) else [])
          ++ contribPairs rs := by
      simp only [contribPairs, List.flatMap_cons]
    show rs.foldl stepResult (stepResult init r) = (contribPairs (r :: rs)).foldl step2 init
    rw [hc, List.foldl_append, ih]
    congr 1
    rw [stepResult]
    split
    · rw [List.foldl_map]
      rfl
    · rfl

theorem correlateMap_eq_foldl (results : List SourceResult) :
    correlateMap results = (contribPairs results).foldl step2 [] :=
  foldl_stepResult_flatten results []

/-! ### Projections of `merge_from` -/

theorem mergeDate_proj (cb : CorrelatedBreach) (o : RawBreach) :
    (mergeDate cb o).normalized_name = cb.normalized_name ∧
    (mergeDate cb o).sources = cb.sources ∧
    (mergeDate cb o).confidence = cb.confidence := by
  rw [mergeDate]
  split <;> exact ⟨rfl, rfl, rfl⟩

theorem mergeDataClasses_proj (cb : CorrelatedBreach) (o : RawBreach) :
    (mergeDataClasses cb o).normalized_name = cb.normalized_name ∧
    (mergeDataClasses cb o).sources = cb.sources ∧
    (mergeDataClasses cb o).confidence = cb.confidence := by
  rw [mergeDataClasses]
  split <;> exact ⟨rfl, rfl, rfl⟩

theorem mergeDescription_proj (cb : CorrelatedBreach) (o : RawBreach) :
    (mergeDescription cb o).normalized_name = cb.normalized_name ∧
    (mergeDescription cb o).sources = cb.sources ∧
    (mergeDescription cb o).confidence = cb.confidence := by
  rw [mergeDescription]
  split <;> exact ⟨rfl, rfl, rfl⟩

theorem mergeRecords_proj (cb : CorrelatedBreach) (o : RawBreach) :
    (mergeRecords cb o).normalized_name = cb.normalized_name ∧
    (mergeRecords cb o).sources = cb.sources ∧
    (mergeRecords cb o).confidence = cb.confidence := by
  rw [mergeRecords]
  split <;> exact ⟨rfl, rfl, rfl⟩

theorem mergeSources_proj (cb : CorrelatedBreach) (s : String) :
    (mergeSources cb s).normalized_name = cb.normalized_name ∧
    (mergeSources cb s).sources = addIfAbsent cb.sources s := by
  rw [mergeSources, addIfAbsent]
  split <;> exact ⟨rfl, rfl⟩

theorem mergeFrom_normalized (cb : CorrelatedBreach) (o : RawBreach) (s : String) :
    (cb.mergeFrom o s).normalized_name = cb.normalized_name := by
  rw [CorrelatedBreach.mergeFrom]
  rw [(mergeRecords_proj _ o).1, (mergeDescription_proj _ o).1,
    (mergeDataClasses_proj _ o).1, (mergeDate_proj _ o).1, (mergeSources_proj cb s).1]

theorem mergeFrom_sources (cb : CorrelatedBreach) (o : RawBreach) (s : String) :
    (cb.mergeFrom o s).sources = addIfAbsent cb.sources s := by
  rw [CorrelatedBreach.mergeFrom]
  rw [(mergeRecords_proj _ o).2.1, (mergeDescription_proj _ o).2.1,
    (mergeDataClasses_proj _ o).2.1, (mergeDate_proj _ o).2.1, (mergeSources_proj cb s).2]

theorem mergeFrom_confidence (cb : CorrelatedBreach) (o : RawBreach) (s : String) :
    (cb.mergeFrom o s).confidence =
      pyMin 1 (((addIfAbsent cb.sources s).length : Rat) / 3) := by
  rw [CorrelatedBreach.mergeFrom]
  show pyMin 1 (((mergeRecords (mergeDescription (mergeDataClasses
    (mergeDate (mergeSources cb s) o) o) o) o).sources.length : Rat) / 3) = _
  rw [(mergeRecords_proj _ o).2.1, (mergeDescription_proj _ o).2.1,
    (mergeDataClasses_proj _ o).2.1, (mergeDate_proj _ o).2.1, (mergeSources_proj cb s).2]

/-! ### Association-list lemmas -/

theorem lookupKey_eq_none {k : String} :
    ∀ {acc : List (String × CorrelatedBreach)},
      lookupKey k acc = none ↔ k ∉ acc.map Prod.fst := by
  intro acc
  induction acc with
  | nil => simp [lookupKey]
  | cons e rest ih =>
    obtain ⟨k', v⟩ := e
    rw [lookupKey]
    by_cases h : k' = k
    · subst h
      simp
    · rw [if_neg h]
      simp only [List.map_cons, List.mem_cons]
      rw [ih]
      constructor
      · rintro hn (h1 | h2)
        · exact h h1.symm
        · exact hn h2
      · intro hn
        exact fun h2 => hn (Or.inr h2)

theorem updateKey_map_fst (k : String) (f : CorrelatedBreach → CorrelatedBreach) :
    ∀ acc : List (String × CorrelatedBreach),
      (updateKey k f acc).map Prod.fst = acc.map Prod.fst := by
  intro acc
  induction acc with
  | nil => rfl
  | cons e rest ih =>
    obtain ⟨k', v⟩ := e
    rw [updateKey]
    split
    · rfl
    · simp only [List.map_cons]
      rw [ih]

theorem mem_updateKey {k : String} {f : CorrelatedBreach → CorrelatedBreach} :
    ∀ {acc : List (String × CorrelatedBreach)} {e : String × CorrelatedBreach},
      (acc.map Prod.fst).Nodup → e ∈ updateKey k f acc →
      (e ∈ acc ∧ e.1 ≠ k) ∨ ∃ v, (k, v) ∈ acc ∧ e = (k, f v) := by
  intro acc
  induction acc with
  | nil => intro e _ he; simp [updateKey] at he
  | cons hd rest ih =>
    obtain ⟨k', v⟩ := hd
    intro e hnd he
    rw [updateKey] at he
    have hnd' : (rest.map Prod.fst).Nodup := (List.nodup_cons.mp hnd).2
    have hk' : k' ∉ rest.map Prod.fst := (List.nodup_cons.mp hnd).1
    split at he
    · rename_i hkk
      subst hkk
      rcases List.mem_cons.mp he with rfl | hmem
      · exact Or.inr ⟨v, List.mem_cons_self _ _, rfl⟩
      · left
        refine ⟨List.mem_cons_of_mem _ hmem, ?_⟩
        intro habs
        apply hk'
        rw [← habs]
        exact List.mem_map_of_mem Prod.fst hmem
    · rename_i hkk
      rcases List.mem_cons.mp he with rfl | hmem
      · exact Or.inl ⟨List.mem_cons_self _ _, hkk⟩
      · rcases ih hnd' hmem with ⟨h1, h2⟩ | ⟨w, hw, hew⟩
        · exact Or.inl ⟨List.mem_cons_of_mem _ h1, h2⟩
        · exact Or.inr ⟨w, List.mem_cons_of_mem _ hw, hew⟩

/-! ### First-occurrence deduplication lemmas -/

theorem namesFor_snoc (k : String) (ps : List (String × RawBreach))
    (p : String × RawBreach) :
    namesFor k (ps ++ [p]) =
      namesFor k ps ++ (if pairKey p = k then [p.1] else []) := by
  rw [namesFor, namesFor, List.filter_append, List.map_append]
  congr 1
  by_cases h : pairKey p = k <;> simp [h]

theorem distinctFold_snoc (ns : List String) (s : String) :
    distinctFold (ns ++ [s]) = addIfAbsent (distinctFold ns) s := by
  rw [distinctFold, distinctFold, List.foldl_append]
  rfl

theorem addIfAbsent_nodup {l : List String} (h : l.Nodup) (s : String) :
    (addIfAbsent l s).Nodup := by
  rw [addIfAbsent]
  split
  · exact h
  · rename_i hs
    simp [List.nodup_append, h, hs]

theorem foldl_addIfAbsent_nodup :
    ∀ (ns : List String) (init : List String), init.Nodup →
      (ns.foldl addIfAbsent init).Nodup := by
  intro ns
  induction ns with
  | nil => exact fun _ h => h
  | cons n ns ih =>
    intro init hinit
    exact ih (addIfAbsent init n) (addIfAbsent_nodup hinit n)

theorem distinctFold_nodup (ns : List String) : (distinctFold ns).Nodup :=
  foldl_addIfAbsent_nodup ns [] List.nodup_nil

theorem addIfAbsent_toFinset (l : List String) (s : String) :
    (addIfAbsent l s).toFinset = insert s l.toFinset := by
  rw [addIfAbsent]
  split
  · rename_i hs
    rw [Finset.insert_eq_self.mpr (List.mem_toFinset.mpr hs)]
  · rw [List.toFinset_append, Finset.insert_eq, Finset.union_comm]
    rfl

theorem foldl_addIfAbsent_toFinset :
    ∀ (ns : List String) (init : List String),
      (ns.foldl addIfAbsent init).toFinset = init.toFinset ∪ ns.toFinset := by
  intro ns
  induction ns with
  | nil => intro init; simp
  | cons n ns ih =>
    intro init
    show (ns.foldl addIfAbsent (addIfAbsent init n)).toFinset = _
    rw [ih, addIfAbsent_toFinset]
    simp [Finset.insert_union, Finset.union_insert]

theorem distinctFold_length (ns : List String) :
    (distinctFold ns).length = ns.toFinset.card := by
  rw [← List.toFinset_card_of_nodup (distinctFold_nodup ns)]
  congr 1
  rw [distinctFold, foldl_addIfAbsent_toFinset]
  simp

/-! ### Stable-sort permutation lemmas -/

theorem insertSorted_perm {α : Type} (le : α → α → Bool) (x : α) :
    ∀ l : List α, List.Perm (insertSorted le x l) (x :: l) := by
  intro l
  induction l with
  | nil => exact List.Perm.refl _
  | cons y ys ih =>
    rw [insertSorted]
    split
    · exact List.Perm.refl _
    · exact (List.Perm.cons y ih).trans (List.Perm.swap x y ys)

theorem pySort_perm {α : Type} (le : α → α → Bool) :
    ∀ l : List α, List.Perm (pySort le l) l := by
  intro l
  induction l with
  | nil => exact List.Perm.refl _
  | cons x xs ih =>
    exact (insertSorted_perm le x (pySort le xs)).trans (List.Perm.cons x ih)

/-! ### The fold invariant -/

/-- Invariant carried over the flattened correlation fold: keys are
unique and equal to each entry's normalized name, each entry's sources
list is the first-occurrence deduplication of the contributing source
names so far, the confidence is either the fresh 0.33 (with exactly one
source) or `min(1, len(sources)/3)`, and absent keys have no
contributions so far. -/
def MapInv (ps : List (String × RawBreach))
    (acc : List (String × CorrelatedBreach)) : Prop :=
  (acc.map Prod.fst).Nodup ∧
  (∀ e ∈ acc, e.2.normalized_name = e.1) ∧
  (∀ e ∈ acc, e.2.sources = distinctFold (namesFor e.1 ps)) ∧
  (∀ e ∈ acc, (e.2.confidence = 33/100 ∧ e.2.sources.length = 1) ∨
    e.2.confidence = pyMin 1 ((e.2.sources.length : Rat) / 3)) ∧
  (∀ k, lookupKey k acc = none → namesFor k ps = [])

theorem mapInv_step {ps : List (String × RawBreach)}
    {acc : List (String × CorrelatedBreach)} (h : MapInv ps acc)
    (p : String × RawBreach) : MapInv (ps ++ [p]) (step2 acc p) := by
  obtain ⟨hnd, hnorm, hsrc, hconf, hcov⟩ := h
  show MapInv (ps ++ [p])
    (match lookupKey (pairKey p) acc with
     | some _ => updateKey (pairKey p) (fun cb => cb.mergeFrom p.2 p.1) acc
     | none => acc ++ [(pairKey p, newCorrelatedBreach p.1 p.2)])
  cases hl : lookupKey (pairKey p) acc with
  | some v =>
    refine ⟨?_, ?_, ?_, ?_, ?_⟩
    · rw [updateKey_map_fst]
      exact hnd
    · intro e he
      rcases mem_updateKey hnd he with ⟨hin, _⟩ | ⟨v', hv', rfl⟩
      · exact hnorm e hin
      · show (v'.mergeFrom p.2 p.1).normalized_name = pairKey p
        rw [mergeFrom_normalized]
        exact hnorm (pairKey p, v') hv'
    · intro e he
      rcases mem_updateKey hnd he with ⟨hin, hne⟩ | ⟨v', hv', rfl⟩
      · rw [namesFor_snoc, if_neg (fun hEq => hne hEq.symm), List.append_nil]
        exact hsrc e hin
      · show (v'.mergeFrom p.2 p.1).sources =
          distinctFold (namesFor (pairKey p) (ps ++ [p]))
        rw [mergeFrom_sources, namesFor_snoc, if_pos rfl, distinctFold_snoc,
          hsrc (pairKey p, v') hv']
    · intro e he
      rcases mem_updateKey hnd he with ⟨hin, _⟩ | ⟨v', hv', rfl⟩
      · exact hconf e hin
      · right
        show (v'.mergeFrom p.2 p.1).confidence =
          pyMin 1 (((v'.mergeFrom p.2 p.1).sources.length : Rat) / 3)
        rw [mergeFrom_confidence, mergeFrom_sources]
    · intro k hk
      have hk' : lookupKey k acc = none := by
        rw [lookupKey_eq_none] at hk ⊢
        rwa [updateKey_map_fst] at hk
      have hne : pairKey p ≠ k := by
        intro hEq
        rw [← hEq] at hk'
        rw [hk'] at hl
        exact Option.noConfusion hl
      rw [namesFor_snoc, hcov k hk', if_neg hne]
      rfl
  | none =>
    have hknot : pairKey p ∉ acc.map Prod.fst := lookupKey_eq_none.mp hl
    refine ⟨?_, ?_, ?_, ?_, ?_⟩
    · rw [List.map_append]
      simp [List.nodup_append, hnd, hknot]
    · intro e he
      rcases List.mem_append.mp he with hin | hone
      · exact hnorm e hin
      · rw [List.mem_singleton.mp hone]
        rfl
    · intro e he
      rcases List.mem_append.mp he with hin | hone
      · have hne : e.1 ≠ pairKey p := by
          intro hEq
          exact hknot (hEq ▸ List.mem_map_of_mem Prod.fst hin)
        rw [namesFor_snoc, if_neg (fun hEq => hne hEq.symm), List.append_nil]
        exact hsrc e hin
      · rw [List.mem_singleton.mp hone]
        show (newCorrelatedBreach p.1 p.2).sources =
          distinctFold (namesFor (pairKey p) (ps ++ [p]))
        rw [namesFor_snoc, hcov (pairKey p) hl, if_pos rfl, List.nil_append]
        rfl
    · intro e he
      rcases List.mem_append.mp he with hin | hone
      · exact hconf e hin
      · rw [List.mem_singleton.mp hone]
        exact Or.inl ⟨rfl, rfl⟩
    · intro k hk
      rw [lookupKey_eq_none, List.map_append, List.mem_append] at hk
      push_neg at hk
      have hk1 : lookupKey k acc = none := lookupKey_eq_none.mpr hk.1
      have hk2 : pairKey p ≠ k := by
        intro hEq
        exact hk.2 (by simp [hEq])
      rw [namesFor_snoc, hcov k hk1, if_neg hk2]
      rfl

theorem mapInv_foldl :
    ∀ (qs ps : List (String × RawBreach)) (acc : List (String × CorrelatedBreach)),
      MapInv ps acc → MapInv (ps ++ qs) (qs.foldl step2 acc) := by
  intro qs
  induction qs with
  | nil =>
    intro ps acc h
    simpa using h
  | cons q qs ih =>
    intro ps acc h
    have h2 := ih (ps ++ [q]) (step2 acc q) (mapInv_step h q)
    rw [List.append_assoc] at h2
    simpa using h2

theorem correlateMap_inv (results : List SourceResult) :
    MapInv (contribPairs results) (correlateMap results) := by
  have hbase : MapInv [] [] :=
    ⟨List.nodup_nil, fun e he => absurd he (List.not_mem_nil e),
     fun e he => absurd he (List.not_mem_nil e),
     fun e he => absurd he (List.not_mem_nil e), fun _ _ => rfl⟩
  have h := mapInv_foldl (contribPairs results) [] [] hbase
  rw [List.nil_append] at h
  rw [correlateMap_eq_foldl]
  exact h

theorem correlate_breaches (year : Int) (results : List SourceResult) (email : String) :
    (correlate year results email).breaches =
      pySort breachSortLe ((correlateMap results).map Prod.snd) := rfl

theorem correlate_breach_count (year : Int) (results : List SourceResult) (email : String) :
    (correlate year results email).breach_count =
      (pySort breachSortLe ((correlateMap results).map Prod.snd)).length := rfl

theorem correlate_risk_score (year : Int) (results : List SourceResult) (email : String) :
    (correlate year results email).risk_score =
      calculateRiskScore year (pySort breachSortLe ((correlateMap results).map Prod.snd)) := rfl

/-- C5: in every `correlate` output no two breaches share a normalized
name — identically-normalizing raw names are merged, never duplicated —
and each breach's sources list has no duplicates, its length is the
number of distinct contributing sources, and 3+ distinct contributing
sources force confidence 1.0. -/
theorem correlate_merge_invariants (year : Int) (results : List SourceResult)
    (email : String) :
    (((correlate year results email).breaches.map fun b => b.normalized_name).Nodup) ∧
    (∀ b ∈ (correlate year results email).breaches,
      b.sources.Nodup ∧
      b.sources.length = (namesFor b.normalized_name (contribPairs results)).toFinset.card ∧
      (3 ≤ (namesFor b.normalized_name (contribPairs results)).toFinset.card →
        b.confidence = 1)) := by
  obtain ⟨hnd, hnorm, hsrc, hconf, -⟩ := correlateMap_inv results
  have hperm := pySort_perm breachSortLe ((correlateMap results).map Prod.snd)
  constructor
  · have h1 : List.Perm
        (((correlate year results email).breaches).map fun b => b.normalized_name)
        ((((correlateMap results).map Prod.snd)).map fun b => b.normalized_name) := by
      rw [correlate_breaches]
      exact hperm.map _
    rw [h1.nodup_iff, List.map_map]
    have h2 : ((correlateMap results).map fun e => e.2.normalized_name) =
        (correlateMap results).map Prod.fst :=
      List.map_congr_left fun e he => hnorm e he
    exact h2 ▸ hnd
  · intro b hb
    rw [correlate_breaches] at hb
    obtain ⟨e, he, rfl⟩ := List.mem_map.mp (hperm.mem_iff.mp hb)
    have hkey : e.2.normalized_name = e.1 := hnorm e he
    have hs := hsrc e he
    refine ⟨?_, ?_, ?_⟩
    · rw [hs]
      exact distinctFold_nodup _
    · rw [hs, hkey, distinctFold_length]
    · intro hcard
      have hlen : 3 ≤ e.2.sources.length := by
        rw [hs, distinctFold_length]
        rw [hkey] at hcard
        exact hcard
      rcases hconf e he with ⟨-, hlen1⟩ | hmin
      · omega
      · rw [hmin, pyMin]
        rw [if_pos ?_]
        have h3 : (3 : Rat) ≤ (e.2.sources.length : Rat) := by exact_mod_cast hlen
        linarith

/-- C4 (amended): every breach in the output of `correlate` has
confidence `min(1.0, len(sources)/3)` if it was ever merged, and the
fresh-insert constant 0.33 (with a single source) if it was inserted
once and never merged; 0.33 is not 1/3, so the two cases differ. -/
theorem correlate_confidence_characterization (year : Int)
    (results : List SourceResult) (email : String) :
    ∀ b ∈ (correlate year results email).breaches,
      (b.confidence = 33/100 ∧ b.sources.length = 1) ∨
      b.confidence = min 1 ((b.sources.length : Rat) / 3) := by
  intro b hb
  rw [correlate_breaches] at hb
  obtain ⟨e, he, rfl⟩ := List.mem_map.mp
    ((pySort_perm breachSortLe _).mem_iff.mp hb)
  rcases (correlateMap_inv results).2.2.2.1 e he with h | h
  · exact Or.inl h
  · right
    rw [h, pyMin_eq_min]

/-- One source reporting one breach: the inserted entry keeps the
constant 0.33, which differs from `min(1.0, 1/3)`. -/
def singleAdobeResults : List SourceResult :=
  [{ source_name := "s1", breached := true, breaches := [{ name := some "Adobe" }] }]

/-- C4 counterexample: a single-source breach in the `correlate` output
has confidence 0.33 while the claimed formula gives 1/3, and 0.33 is not
1/3, so the claim fails on any never-merged breach. -/
theorem correlate_confidence_counterexample :
    ((correlate 2026 singleAdobeResults "e@x.com").breaches.map fun b => b.confidence)
      = [33/100] ∧
    ((correlate 2026 singleAdobeResults "e@x.com").breaches.map
      fun b => (b.sources.length : Rat)) = [1] ∧
    (33/100 : Rat) ≠ min 1 ((1 : Rat) / 3) := by
  refine ⟨by with_unfolding_all rfl, by with_unfolding_all rfl, ?_⟩
  rw [min_eq_right (by norm_num : ((1 : Rat)/3) ≤ 1)]
  norm_num

/-- C4 witness: the characterization applied to the concrete
single-source breach. -/
theorem correlate_confidence_witness :
    ((newCorrelatedBreach "s1" { name := some "Adobe" }).confidence = 33/100 ∧
      (newCorrelatedBreach "s1" { name := some "Adobe" }).sources.length = 1) ∨
    (newCorrelatedBreach "s1" { name := some "Adobe" }).confidence =
      min 1 (((newCorrelatedBreach "s1" { name := some "Adobe" }).sources.length : Rat) / 3) := by
  have hb : (correlate 2026 singleAdobeResults "e@x.com").breaches =
      [newCorrelatedBreach "s1" { name := some "Adobe" }] := by
    with_unfolding_all rfl
  exact correlate_confidence_characterization 2026 singleAdobeResults "e@x.com" _
    (by rw [hb]; exact List.mem_cons_self _ _)

/-- Three sources report the same breach under different raw spellings;
the first source even reports it twice. -/
def threeSourceResults : List SourceResult :=
  [{ source_name := "s1", breached := true,
     breaches := [{ name := some "Adobe" }, { name := some "Adobe" }] },
   { source_name := "s2", breached := true, breaches := [{ name := some "ADOBE" }] },
   { source_name := "s3", breached := true, breaches := [{ name := some "Adobe Systems" }] }]

/-- The single merged entry the three-source scenario produces. -/
def cbAdobe3 : CorrelatedBreach :=
  { name := "Adobe", normalized_name := "adobe", data_classes := ["Unknown"],
    sources := ["s1", "s2", "s3"], confidence := 1 }

/-- C5 witness: the merge invariants applied to the three-source merge. -/
theorem correlate_merge_invariants_witness :
    (((correlate 2026 threeSourceResults "e@x.com").breaches.map
      fun b => b.normalized_name).Nodup) ∧
    cbAdobe3.sources.Nodup ∧ cbAdobe3.confidence = 1 ∧ cbAdobe3.sources.length = 3 := by
  have H := correlate_merge_invariants 2026 threeSourceResults "e@x.com"
  have hb : (correlate 2026 threeSourceResults "e@x.com").breaches = [cbAdobe3] := by
    with_unfolding_all rfl
  have H2 := H.2 cbAdobe3 (by rw [hb]; exact List.mem_cons_self _ _)
  refine ⟨H.1, H2.1, ?_, rfl⟩
  exact H2.2.2 (of_decide_eq_true (by with_unfolding_all rfl))

theorem riskScore_five_le (year : Int) {l : List CorrelatedBreach} (h : l ≠ []) :
    5 ≤ calculateRiskScore year l := by
  rw [riskScore_eq, if_neg h]
  refine le_min (by norm_num) ?_
  have hlen : 1 ≤ l.length := List.length_pos.mpr h
  have hlen' : (1 : Rat) ≤ (l.length : Rat) := by exact_mod_cast hlen
  have h5 : (5 : Rat) ≤ min ((l.length : Rat) * 5) 40 :=
    le_min (by linarith) (by norm_num)
  have t2 : (0 : Rat) ≤ ((l.countP fun b => isRecent year b) : Rat) * 15 := by positivity
  have t3 : (0 : Rat) ≤ ((l.countP fun b => hasSensitive b) : Rat) * 10 := by positivity
  have t4 : (0 : Rat) ≤ ((l.countP fun b => decide (b.confidence ≥ 1/2)) : Rat) * 5 := by
    positivity
  linarith

/-- C10: in every `correlate` output the risk score is strictly positive
iff the breach count is: an empty correlated list scores exactly 0, and
any non-empty list scores at least 5, so a zero score never coexists
with a reported breach and a positive score never coexists with a clean
result. -/
theorem correlate_risk_positive_iff (year : Int) (results : List SourceResult)
    (email : String) :
    (0 < (correlate year results email).risk_score ↔
      0 < (correlate year results email).breach_count) ∧
    ((correlate year results email).breach_count = 0 →
      (correlate year results email).risk_score = 0) ∧
    (0 < (correlate year results email).breach_count →
      5 ≤ (correlate year results email).risk_score) := by
  rw [correlate_risk_score, correlate_breach_count]
  have hzero : (pySort breachSortLe ((correlateMap results).map Prod.snd)).length = 0 →
      calculateRiskScore year (pySort breachSortLe ((correlateMap results).map Prod.snd)) = 0 := by
    intro h0
    rw [riskScore_eq, if_pos (List.length_eq_zero.mp h0)]
  have hfive : 0 < (pySort breachSortLe ((correlateMap results).map Prod.snd)).length →
      5 ≤ calculateRiskScore year (pySort breachSortLe ((correlateMap results).map Prod.snd)) := by
    intro hpos
    refine riskScore_five_le year ?_
    intro habs
    rw [habs] at hpos
    simp at hpos
  refine ⟨⟨?_, fun h => by linarith [hfive h]⟩, hzero, hfive⟩
  intro hpos
  by_contra hz
  push_neg at hz
  have h0 : (pySort breachSortLe ((correlateMap results).map Prod.snd)).length = 0 := by
    omega
  rw [hzero h0] at hpos
  exact absurd hpos (by norm_num)

/-- C10 witness: one reported breach gives a strictly positive score. -/
theorem correlate_risk_positive_witness :
    0 < (correlate 2026 singleAdobeResults "e@x.com").risk_score := by
  refine (correlate_risk_positive_iff 2026 singleAdobeResults "e@x.com").1.mpr ?_
  exact of_decide_eq_true (by with_unfolding_all rfl)
